import Mathlib

/-!
Shallow embedding of the order-lifecycle core of the XT exchange connector
(`hummingbot/connector/exchange/xt/xt_exchange.py`) and of the TTNEx auth
helper (`hummingbot/connector/exchange/ttnex/ttnex_auth.py`).

Conventions of the embedding:
* Python `Decimal` amounts are modelled as `ℚ`.
* The in-flight order registry (a Python `dict[str, XtInFlightOrder]`) is
  modelled as an association list with first-match lookup; Python dicts have
  unique keys, which appears as `keysNodup` hypotheses where needed.
* In-place mutation of a tracked order object is modelled by `updateEntry`
  (replacing the value stored under the order's key), and `del` by
  `dictRemove`.
* Code imported by `xt_exchange.py` whose source is not part of this tree
  (`XtInFlightOrder`, the `ORDER_STATUS` constant table, the base-class
  quantizers, `xt_utils` helpers) is modelled from the specification; every
  such definition says so in its doc comment.
-/

namespace XT

/-- Order types of the hummingbot core event model (`OrderType` in
`hummingbot.core.event.events`; the source of that module is not in this
tree). Modelled from the spec: the connector supports the limit family
(`LIMIT`, `LIMIT_MAKER`) and rejects `MARKET`. -/
inductive OrderType where
  | market
  | limit
  | limitMaker
  deriving DecidableEq

/-- Modelled from the spec: "order type (must be a limit-family type —
market orders are rejected)"; mirrors `OrderType.is_limit_type()`. -/
def OrderType.is_limit_type : OrderType → Bool
  | .limit => true
  | .limitMaker => true
  | .market => false

/-- Order side (`TradeType` in `hummingbot.core.event.events`). -/
inductive TradeType where
  | buy
  | sell
  deriving DecidableEq

/-- Modelled from the spec: the per-order states named by the state machine
of the spec (§4.4).  In the source, `last_state` is a string drawn from the
`CONSTANTS.ORDER_STATUS` lookup table (whose module is not in this tree). -/
inductive OrderState where
  | pendingCreate
  | opened
  | partlyFilled
  | filled
  | cancelled
  | failed
  deriving DecidableEq

/-- Modelled from the spec: the in-flight order entity (`XtInFlightOrder`,
whose module is not in this tree): identity, descriptive fields, mutable
fill accounting, the set of applied trade ids, and `last_state`. -/
structure XtInFlightOrder where
  client_order_id : String
  exchange_order_id : Option String
  trading_pair : String
  order_type : OrderType
  trade_type : TradeType
  price : ℚ
  amount : ℚ
  executed_amount_base : ℚ
  executed_amount_quote : ℚ
  fee_paid : ℚ
  trade_ids : List String
  last_state : OrderState
  deriving DecidableEq

/-- Modelled from the spec: `is_cancelled` is a pure function of
`last_state`. -/
def XtInFlightOrder.is_cancelled (o : XtInFlightOrder) : Bool :=
  o.last_state = OrderState.cancelled

/-- Modelled from the spec: `is_failure` is a pure function of
`last_state`. -/
def XtInFlightOrder.is_failure (o : XtInFlightOrder) : Bool :=
  o.last_state = OrderState.failed

/-- Modelled from the spec: `is_done` is a pure function of `last_state`;
"done" is the filled terminal state reached through the completion path
(§4.4: reaching "done" triggers trade-delta processing). -/
def XtInFlightOrder.is_done (o : XtInFlightOrder) : Bool :=
  o.last_state = OrderState.filled

/-- An order-status record as consumed by `_process_order_message` and
`update_with_order_status`: the exchange order id, the mapped state, the
cumulative executed base amount, the average price, fee, and the trade id
the record carries (when known). -/
structure OrderStatusMsg where
  id : String
  status : OrderState
  cumulative_base : ℚ
  avg_price : ℚ
  fee : ℚ
  trade_id : Option String
  deriving DecidableEq

/-- A discrete trade record as consumed by
`_process_trade_message_from_trade_status` and `update_with_trade_status`. -/
structure TradeMsg where
  orderId : String
  trade_id : String
  amount : ℚ
  price : ℚ
  fee : ℚ
  deriving DecidableEq

/-- Modelled from the spec (§4.5): `apply_order_status(msg) -> delta`
computes `delta = new_cumulative - old_cumulative`; if the delta is zero or
negative the record is stale and nothing changes; otherwise the cumulative
totals advance and the record's trade id (when carried) is recorded so the
same fill delivered later through the trade path is not double-applied. -/
def XtInFlightOrder.update_with_order_status (o : XtInFlightOrder) (m : OrderStatusMsg) :
    XtInFlightOrder × ℚ :=
  let delta := m.cumulative_base - o.executed_amount_base
  if delta ≤ 0 then (o, 0)
  else
    ({ o with
        executed_amount_base := m.cumulative_base
        executed_amount_quote := o.executed_amount_quote + delta * m.avg_price
        fee_paid := o.fee_paid + m.fee
        trade_ids :=
          match m.trade_id with
          | some t => if t ∈ o.trade_ids then o.trade_ids else t :: o.trade_ids
          | none => o.trade_ids },
      delta)

/-- Modelled from the spec (§4.5): `apply_trade(msg) -> delta` checks the
trade's id against the order's applied-trade-id set; if already present the
record is a no-op, otherwise the trade's amount/price/fee are added to the
cumulative totals and the id is recorded. -/
def XtInFlightOrder.update_with_trade_status (o : XtInFlightOrder) (m : TradeMsg) :
    XtInFlightOrder × ℚ :=
  if m.trade_id ∈ o.trade_ids then (o, 0)
  else
    ({ o with
        executed_amount_base := o.executed_amount_base + m.amount
        executed_amount_quote := o.executed_amount_quote + m.amount * m.price
        fee_paid := o.fee_paid + m.fee
        trade_ids := m.trade_id :: o.trade_ids },
      m.amount)

/-! ### Association-list model of Python dicts -/

/-- Python `d.get(k)` / `d[k]` read: first entry stored under `k`. -/
def dictGet {α : Type} : List (String × α) → String → Option α
  | [], _ => none
  | (k0, v) :: rest, k => if k = k0 then some v else dictGet rest k

/-- `first` when present, `second` otherwise. -/
def orElseGet {α : Type} (first second : Option α) : Option α :=
  match first with
  | some v => some v
  | none => second

/-- In-place mutation of the object stored under key `k` (the Python object
in the dict is mutated; no entry is ever created). -/
def updateEntry {α : Type} : List (String × α) → String → α → List (String × α)
  | [], _, _ => []
  | (k0, v0) :: rest, k, v =>
    if k0 = k then (k, v) :: updateEntry rest k v
    else (k0, v0) :: updateEntry rest k v

/-- Python `d[k] = v`: replace the value when the key is present (keeping
its position), append a new entry otherwise. -/
def dictInsert {α : Type} (d : List (String × α)) (k : String) (v : α) :
    List (String × α) :=
  if (dictGet d k).isSome then updateEntry d k v
  else d ++ [(k, v)]

/-- Python `del d[k]` / `dict.pop`: drop every entry stored under `k`. -/
def dictRemove {α : Type} : List (String × α) → String → List (String × α)
  | [], _ => []
  | (k0, v0) :: rest, k =>
    if k0 = k then dictRemove rest k
    else (k0, v0) :: dictRemove rest k

/-- Python `d.update(entries)`: insert every entry in order. -/
def dictUpdate {α : Type} (d : List (String × α)) (entries : List (String × α)) :
    List (String × α) :=
  entries.foldl (fun acc p => dictInsert acc p.1 p.2) d

/-- The keys of an association list are pairwise distinct — the invariant a
Python dict maintains for free. -/
def keysNodup {α : Type} (d : List (String × α)) : Prop :=
  (d.map Prod.fst).Nodup

instance {α : Type} (d : List (String × α)) : Decidable (keysNodup d) := by
  unfold keysNodup
  infer_instance

/-! ### Connector state, events, and the reconciliation operations -/

/-- Business events emitted through `trigger_event`, reduced to the fields
the claims are about. -/
inductive Event where
  | orderFilled (client_order_id : String) (amount price fee : ℚ)
      (trade_id : Option String)
  | buyOrderCompleted (client_order_id : String) (base_executed quote_executed : ℚ)
  | sellOrderCompleted (client_order_id : String) (base_executed quote_executed : ℚ)
  | orderCancelled (client_order_id : String)
  | orderFailure (client_order_id : String) (order_type : OrderType)
  | buyOrderCreated (client_order_id : String)
  | sellOrderCreated (client_order_id : String)
  deriving DecidableEq

def Event.isFill : Event → Bool
  | .orderFilled _ _ _ _ _ => true
  | _ => false

def Event.isCompleted : Event → Bool
  | .buyOrderCompleted _ _ _ => true
  | .sellOrderCompleted _ _ _ => true
  | _ => false

def Event.isFailureEvent : Event → Bool
  | .orderFailure _ _ => true
  | _ => false

def countFills (l : List Event) : ℕ := (l.filter Event.isFill).length

def countCompleted (l : List Event) : ℕ := (l.filter Event.isCompleted).length

/-- The connector state the claims are about: the in-flight order registry
(`self._in_flight_orders`) together with the stream of emitted events. -/
structure ConnState where
  in_flight_orders : List (String × XtInFlightOrder)
  events : List Event
  deriving DecidableEq

/-- `restore_tracking_states(saved_states)`:
`self._in_flight_orders.update({key: XtInFlightOrder.from_json(value) for
key, value in saved_states.items()})`.  Saved values are modelled as the
decoded orders (`from_json`, whose module is not in this tree, is the
deserialization and appears as the identity of the model). -/
def restore_tracking_states (s : ConnState)
    (saved_states : List (String × XtInFlightOrder)) : ConnState :=
  { s with in_flight_orders := dictUpdate s.in_flight_orders saved_states }

/-- `start_tracking_order`: insert a fresh `XtInFlightOrder` into
`_in_flight_orders` under the client order id.  The initial accounting is
zero and the initial state is the pending-create state (modelled from the
spec, §3 lifecycle). -/
def start_tracking_order (s : ConnState) (order_id : String)
    (exchange_order_id : Option String) (trading_pair : String)
    (trade_type : TradeType) (price amount : ℚ) (order_type : OrderType) :
    ConnState :=
  { s with
      in_flight_orders := dictInsert s.in_flight_orders order_id
        { client_order_id := order_id
          exchange_order_id := exchange_order_id
          trading_pair := trading_pair
          order_type := order_type
          trade_type := trade_type
          price := price
          amount := amount
          executed_amount_base := 0
          executed_amount_quote := 0
          fee_paid := 0
          trade_ids := []
          last_state := OrderState.pendingCreate } }

/-- `stop_tracking_order`: remove the entry if present, no-op otherwise. -/
def stop_tracking_order (s : ConnState) (order_id : String) : ConnState :=
  { s with in_flight_orders := dictRemove s.in_flight_orders order_id }

/-- `[order for order in tracked_orders if exchange_order_id ==
order.exchange_order_id]` followed by taking the first element. -/
def findTrackedByExchangeId (reg : List (String × XtInFlightOrder))
    (eid : String) : Option (String × XtInFlightOrder) :=
  reg.find? (fun p => decide (p.2.exchange_order_id = some eid))

/-- `math.isclose` with its default tolerances (`rel_tol = 1e-9`,
`abs_tol = 0`), over `ℚ`. -/
def iscloseQ (a b : ℚ) : Bool :=
  decide (|a - b| ≤ max |a| |b| * (1 / 1000000000))

/-- The completion test of both trade-message processors:
`math.isclose(executed_amount_base, amount) or executed_amount_base >=
amount`. -/
def completionReached (o : XtInFlightOrder) : Bool :=
  iscloseQ o.executed_amount_base o.amount || decide (o.amount ≤ o.executed_amount_base)

/-- The Completed event fired when an order finishes
(`BuyOrderCompletedEvent` / `SellOrderCompletedEvent`). -/
def completedEvent (client_order_id : String) (o : XtInFlightOrder) : Event :=
  if o.trade_type = TradeType.buy then
    Event.buyOrderCompleted client_order_id o.executed_amount_base o.executed_amount_quote
  else
    Event.sellOrderCompleted client_order_id o.executed_amount_base o.executed_amount_quote

/-- `_process_trade_message_from_order_status`: find the tracked order by
exchange id, apply `update_with_order_status`, return early when the delta
is zero, otherwise emit a Fill event and — when the executed amount reaches
the requested amount within the tolerance — mark the order filled, emit the
Completed event and stop tracking it. -/
def process_trade_message_from_order_status (s : ConnState)
    (order_msg : OrderStatusMsg) : ConnState :=
  match findTrackedByExchangeId s.in_flight_orders order_msg.id with
  | none => s
  | some (client_order_id, o) =>
    let r := o.update_with_order_status order_msg
    let o1 := r.1
    let delta_trade_amount := r.2
    let reg1 := updateEntry s.in_flight_orders client_order_id o1
    if delta_trade_amount = 0 then
      { s with in_flight_orders := reg1 }
    else
      let ev1 := s.events ++
        [Event.orderFilled client_order_id delta_trade_amount order_msg.avg_price
          order_msg.fee order_msg.trade_id]
      if completionReached o1 then
        let o2 := { o1 with last_state := OrderState.filled }
        { in_flight_orders := dictRemove (updateEntry reg1 client_order_id o2) client_order_id
          events := ev1 ++ [completedEvent client_order_id o2] }
      else
        { in_flight_orders := reg1, events := ev1 }

/-- `_process_trade_message_from_trade_status`: same shape as the
order-status flavour but driven by a discrete trade record and
`update_with_trade_status`. -/
def process_trade_message_from_trade_status (s : ConnState)
    (trade_msg : TradeMsg) : ConnState :=
  match findTrackedByExchangeId s.in_flight_orders trade_msg.orderId with
  | none => s
  | some (client_order_id, o) =>
    let r := o.update_with_trade_status trade_msg
    let o1 := r.1
    let delta_trade_amount := r.2
    let reg1 := updateEntry s.in_flight_orders client_order_id o1
    if delta_trade_amount = 0 then
      { s with in_flight_orders := reg1 }
    else
      let ev1 := s.events ++
        [Event.orderFilled client_order_id delta_trade_amount trade_msg.price
          trade_msg.fee (some trade_msg.trade_id)]
      if completionReached o1 then
        let o2 := { o1 with last_state := OrderState.filled }
        { in_flight_orders := dictRemove (updateEntry reg1 client_order_id o2) client_order_id
          events := ev1 ++ [completedEvent client_order_id o2] }
      else
        { in_flight_orders := reg1, events := ev1 }

/-- `_process_order_message`: find the tracked order by exchange id, write
the mapped status into `last_state`, then dispatch on
`is_cancelled` / `is_done` / `is_failure`. -/
def process_order_message (s : ConnState) (order_msg : OrderStatusMsg) :
    ConnState :=
  match findTrackedByExchangeId s.in_flight_orders order_msg.id with
  | none => s
  | some (client_order_id, o) =>
    let o1 := { o with last_state := order_msg.status }
    let s1 : ConnState :=
      { s with in_flight_orders := updateEntry s.in_flight_orders client_order_id o1 }
    if o1.is_cancelled then
      { in_flight_orders := dictRemove s1.in_flight_orders client_order_id
        events := s1.events ++ [Event.orderCancelled client_order_id] }
    else if o1.is_done then
      process_trade_message_from_order_status s1 order_msg
    else if o1.is_failure then
      { in_flight_orders := dictRemove s1.in_flight_orders client_order_id
        events := s1.events ++ [Event.orderFailure client_order_id o1.order_type] }
    else
      s1

/-- A fill-bearing record delivered through one of the two reconciliation
paths (§4.5). -/
inductive FillRecord where
  | fromOrderStatus (m : OrderStatusMsg)
  | fromTrade (m : TradeMsg)
  deriving DecidableEq

def XtInFlightOrder.applyRecord (o : XtInFlightOrder) :
    FillRecord → XtInFlightOrder × ℚ
  | .fromOrderStatus m => o.update_with_order_status m
  | .fromTrade m => o.update_with_trade_status m

/-- Apply a sequence of records to one order, collecting the deltas the
dedup contract returned, in order. -/
def XtInFlightOrder.applyRecords (o : XtInFlightOrder) :
    List FillRecord → XtInFlightOrder × List ℚ
  | [] => (o, [])
  | r :: rs =>
    let p := o.applyRecord r
    let q := p.1.applyRecords rs
    (q.1, p.2 :: q.2)

/-- Exchange-reported trade amounts are positive (the invariant of §3 that
`executed_amount_base` is monotonically non-decreasing presumes it). -/
def FillRecord.posTradeAmount : FillRecord → Bool
  | .fromTrade m => decide (0 < m.amount)
  | .fromOrderStatus _ => true

/-! ### Trading rules and order submission -/

/-- `hummingbot.connector.trading_rule.TradingRule`, restricted to the
fields this connector populates. -/
structure TradingRule where
  trading_pair : String
  min_order_size : ℚ
  min_order_value : ℚ
  min_base_amount_increment : ℚ
  min_price_increment : ℚ
  deriving DecidableEq

/-- Modelled from the spec (§4.2): `quantize(pair, price|amount)` rounds the
value down to the pair's increment (the base-class quantizers are not in
this tree). -/
def quantize_to_increment (increment value : ℚ) : ℚ :=
  ⌊value / increment⌋ * increment

def quantize_order_amount (rule : TradingRule) (amount : ℚ) : ℚ :=
  quantize_to_increment rule.min_base_amount_increment amount

def quantize_order_price (rule : TradingRule) (price : ℚ) : ℚ :=
  quantize_to_increment rule.min_price_increment price

/-- Outcome of one `_create_order` coroutine run: the final connector
state, whether the remote create-order endpoint was called, and the
message of an exception that escaped the coroutine (the non-limit check and
the trading-rule lookup sit before the `try` block, so their exceptions are
not converted into Failure events). -/
structure CreateResult where
  state : ConnState
  api_called : Bool
  raised : Option String
  deriving DecidableEq

/-- `_create_order`, with the remote call abstracted into `api_result`
(`Except.ok` carries the exchange order id from the response; `Except.error`
is any exception out of `_api_request`). -/
def create_order (trade_type : TradeType) (order_id : String)
    (trading_pair : String) (amount : ℚ) (order_type : OrderType) (price : ℚ)
    (trading_rules : List (String × TradingRule))
    (api_result : Except String String) (s : ConnState) : CreateResult :=
  if ¬ order_type.is_limit_type then
    { state := s, api_called := false, raised := some "Unsupported order type" }
  else
    match dictGet trading_rules trading_pair with
    | none => { state := s, api_called := false, raised := some "KeyError" }
    | some trading_rule =>
      let amount1 := quantize_order_amount trading_rule amount
      let price1 := quantize_order_price trading_rule price
      if amount1 < trading_rule.min_order_size then
        { state :=
            { in_flight_orders := dictRemove s.in_flight_orders order_id
              events := s.events ++ [Event.orderFailure order_id order_type] }
          api_called := false
          raised := none }
      else
        let s1 := start_tracking_order s order_id none trading_pair trade_type
          price1 amount1 order_type
        match api_result with
        | .error _ =>
          { state :=
              { in_flight_orders := dictRemove s1.in_flight_orders order_id
                events := s1.events ++ [Event.orderFailure order_id order_type] }
            api_called := true
            raised := none }
        | .ok exchange_id =>
          let created :=
            if trade_type = TradeType.buy then Event.buyOrderCreated order_id
            else Event.sellOrderCreated order_id
          { state :=
              { in_flight_orders :=
                  match dictGet s1.in_flight_orders order_id with
                  | some o =>
                    updateEntry s1.in_flight_orders order_id
                      { o with exchange_order_id := some exchange_id }
                  | none => s1.in_flight_orders
                events := s1.events ++ [created] }
            api_called := true
            raised := none }

/-! ### cancel_all -/

/-- `hummingbot.core.data_type.cancellation_result.CancellationResult`. -/
structure CancellationResult where
  order_id : String
  success : Bool
  deriving DecidableEq

/-- The classification phase of `cancel_all`: walk the snapshot of tracked
orders taken at entry; an order absent from the re-fetched remote open-order
set is recorded as successfully cancelled (Cancelled event + stop
tracking), an order still present is recorded as unconfirmed. -/
def cancel_all_classify (tracked : List (String × XtInFlightOrder))
    (open_ids : List String) (s : ConnState) :
    ConnState × List CancellationResult :=
  match tracked with
  | [] => (s, [])
  | (cl_order_id, _) :: rest =>
    if cl_order_id ∈ open_ids then
      let r := cancel_all_classify rest open_ids s
      (r.1, { order_id := cl_order_id, success := false } :: r.2)
    else
      let s1 : ConnState :=
        { in_flight_orders := dictRemove s.in_flight_orders cl_order_id
          events := s.events ++ [Event.orderCancelled cl_order_id] }
      let r := cancel_all_classify rest open_ids s1
      (r.1, { order_id := cl_order_id, success := true } :: r.2)

/-- `cancel_all` in the run without request failures: the per-order
`_execute_cancel` calls neither mutate the registry nor emit events (see
`execute_cancel`), so after the settle delay the result is the
classification of the entry snapshot against the re-fetched open-order
client ids. -/
def cancel_all (s : ConnState) (open_ids : List String) :
    ConnState × List CancellationResult :=
  cancel_all_classify s.in_flight_orders open_ids s

/-! ### Trading-rule refresh -/

/-- Split a character list on underscores. -/
def splitOnUnderscore : List Char → List (List Char)
  | [] => [[]]
  | c :: rest =>
    match splitOnUnderscore rest with
    | [] => []
    | w :: ws => if c = '_' then [] :: w :: ws else (c :: w) :: ws

/-- Join character-list words with dashes. -/
def joinDash : List (List Char) → List Char
  | [] => []
  | [w] => w
  | w :: ws => w ++ '-' :: joinDash ws

/-- `xt_utils.convert_from_exchange_trading_pair` (module not in this
tree); modelled from the spec example (`"ltc_usdt"` ↦ `"LTC-USDT"`):
uppercase the underscore-separated legs and join them with a dash. -/
def convert_from_exchange_trading_pair (market : String) : String :=
  String.mk (joinDash ((splitOnUnderscore market.data).map
    (fun w => w.map Char.toUpper)))

/-- A per-pair entry of the GET-trading-rules response; a `none` field is a
malformed entry (missing or unparsable key), which `_format_trading_rules`
skips with a logged error. -/
structure RawTradingRule where
  minAmount : Option ℚ
  minMoney : Option ℚ
  pricePoint : Option ℕ
  coinPoint : Option ℕ
  deriving DecidableEq

/-- The per-entry body of `_format_trading_rules`: derive the decimal
increments (`10^-decimals`) and build the `TradingRule`; any missing field
makes the entry fail and be skipped. -/
def parseTradingRule (market : String) (raw : RawTradingRule) :
    Option TradingRule :=
  match raw.minAmount, raw.minMoney, raw.pricePoint, raw.coinPoint with
  | some minAmount, some minMoney, some pricePoint, some coinPoint =>
    some
      { trading_pair := convert_from_exchange_trading_pair market
        min_order_size := minAmount
        min_order_value := minMoney
        min_base_amount_increment := 1 / 10 ^ coinPoint
        min_price_increment := 1 / 10 ^ pricePoint }
  | _, _, _, _ => none

/-- `_format_trading_rules`: convert the response into a table, skipping
malformed entries. -/
def format_trading_rules (market_configs : List (String × RawTradingRule)) :
    List (String × TradingRule) :=
  market_configs.filterMap (fun p =>
    match parseTradingRule p.1 p.2 with
    | some rule => some (convert_from_exchange_trading_pair p.1, rule)
    | none => none)

/-- One iteration of `_trading_rules_polling_loop` around
`_update_trading_rules`: a successful fetch replaces the table atomically
(the `clear()` and the reassignment run with no suspension point between
them) and the loop sleeps 60 s; a failed fetch raises before `clear()`, is
caught and logged, the table is untouched and the loop sleeps 0.5 s.
Returns the new table and the sleep length in seconds. -/
def trading_rules_poll_iteration
    (fetch : Except String (List (String × RawTradingRule)))
    (table : List (String × TradingRule)) :
    List (String × TradingRule) × ℚ :=
  match fetch with
  | .ok market_configs => (format_trading_rules market_configs, 60)
  | .error _ => (table, 1 / 2)

/-! ### _execute_cancel -/

/-- Outcome of awaiting the cancel-order API call: a cancellation signal
(`asyncio.CancelledError`), any other exception, or a parsed response with
its exchange `code`. -/
inductive CancelApiOutcome where
  | cancelSignal
  | exn (msg : String)
  | ok (code : Int)
  deriving DecidableEq

/-- `_execute_cancel`: look the order up, make sure an exchange id is
available (`eid_wait` is the outcome of awaiting the assignment when it is
still missing: `none` models the wait raising), call the cancel endpoint,
accept codes 200/121/122 and treat everything else as a failed cancellation
attempt.  Every exception except the cancellation signal is caught and
logged; the function then falls off the end returning `none`.  The
registry is never touched. -/
def execute_cancel_request (s : ConnState) (order_id : String)
    (api : CancelApiOutcome) : Except Unit (ConnState × Option String) :=
  match api with
  | .cancelSignal => Except.error ()
  | .exn _ => Except.ok (s, none)
  | .ok code =>
    if code ∈ ([200, 121, 122] : List Int) then Except.ok (s, some order_id)
    else Except.ok (s, none)

def execute_cancel (s : ConnState) (order_id : String)
    (eid_wait : Option String) (api : CancelApiOutcome) :
    Except Unit (ConnState × Option String) :=
  match dictGet s.in_flight_orders order_id with
  | none => Except.ok (s, none)
  | some tracked_order =>
    match orElseGet tracked_order.exchange_order_id eid_wait with
    | none => Except.ok (s, none)
    | some _ => execute_cancel_request s order_id api

/-! ### _api_request response handling -/

/-- A decoded response body: the optional exchange `code` field and an
opaque payload standing for the rest of the JSON. -/
structure ApiBody where
  code : Option Int
  payload : String
  deriving DecidableEq

/-- The two error shapes `_api_request` raises: a transport `IOError`
(decode failure or bad HTTP status) and an application `IOError` carrying
the decoded body. -/
inductive ApiFailure where
  | transport (msg : String)
  | application (body : ApiBody)
  deriving DecidableEq

def ApiFailure.isTransport : ApiFailure → Bool
  | .transport _ => true
  | .application _ => false

/-- The response-handling tail of `_api_request` (lines 339-350): decode the
body (a `none` `decoded` is a JSON decode failure), check the HTTP status,
then check the exchange `code` field against the allow-list
`[200, 121, 122]`. -/
def api_response_check (decoded : Option ApiBody) (status : ℕ) :
    Except ApiFailure ApiBody :=
  match decoded with
  | none => Except.error (ApiFailure.transport "Error parsing data")
  | some parsed_response =>
    if status ≠ 200 then
      Except.error (ApiFailure.transport "Error calling url, bad HTTP status")
    else
      match parsed_response.code with
      | some c =>
        if c ∈ ([200, 121, 122] : List Int) then Except.ok parsed_response
        else Except.error (ApiFailure.application parsed_response)
      | none => Except.ok parsed_response

/-! ### TTNEx auth (`ttnex_auth.py`) -/

/-- `TTNExAuth`: the configured key material. -/
structure TTNExAuth where
  api_key : String
  secret_key : String
  deriving DecidableEq

/-- The `data` dictionary passed to `generate_auth_dict`: its `params`
sub-dictionary (absent when the key is missing) and the remaining top-level
entries, which the function never touches. -/
structure AuthData where
  params : Option (List (String × String))
  extra : List (String × String)
  deriving DecidableEq

/-- `TTNExAuth.generate_auth_dict`: default `data` to `{}`, make sure a
`params` dict exists, then `data['params'].update({'api_key': api_key})`
and return `data`. -/
def generate_auth_dict (auth : TTNExAuth) (path_url : String)
    (request_id nonce : Int) (data : Option AuthData) : AuthData :=
  let d := data.getD { params := none, extra := [] }
  let data_params := d.params.getD []
  let ps := if data_params.isEmpty then ([] : List (String × String)) else data_params
  { d with params := some (dictInsert ps "api_key" auth.api_key) }

/-! ### Concrete inputs used by counterexamples and witnesses -/

/-- A state whose `last_state` is terminal (filled, cancelled or failed),
per the spec's glossary. -/
def OrderState.isTerminal : OrderState → Bool
  | .filled => true
  | .cancelled => true
  | .failed => true
  | _ => false

def c0State : ConnState := { in_flight_orders := [], events := [] }

def c1TerminalOrder : XtInFlightOrder :=
  { client_order_id := "XT-B1"
    exchange_order_id := some "901"
    trading_pair := "BTC-USDT"
    order_type := OrderType.limit
    trade_type := TradeType.buy
    price := 10
    amount := 5
    executed_amount_base := 5
    executed_amount_quote := 50
    fee_paid := 0
    trade_ids := ["T1"]
    last_state := OrderState.filled }

def c1OpenOrder : XtInFlightOrder :=
  { client_order_id := "XT-S2"
    exchange_order_id := some "902"
    trading_pair := "BTC-USDT"
    order_type := OrderType.limit
    trade_type := TradeType.sell
    price := 11
    amount := 3
    executed_amount_base := 1
    executed_amount_quote := 11
    fee_paid := 0
    trade_ids := ["T2"]
    last_state := OrderState.partlyFilled }

def c1Saved : List (String × XtInFlightOrder) :=
  [("XT-B1", c1TerminalOrder), ("XT-S2", c1OpenOrder)]

def c2Rule : TradingRule :=
  { trading_pair := "BTC-USDT"
    min_order_size := 1 / 10000
    min_order_value := 5
    min_base_amount_increment := 1 / 10000
    min_price_increment := 1 / 100 }

def c2Rules : List (String × TradingRule) := [("BTC-USDT", c2Rule)]

def c3Order : XtInFlightOrder :=
  { client_order_id := "XT-B3"
    exchange_order_id := some "903"
    trading_pair := "BTC-USDT"
    order_type := OrderType.limit
    trade_type := TradeType.buy
    price := 10
    amount := 5
    executed_amount_base := 5
    executed_amount_quote := 50
    fee_paid := 0
    trade_ids := ["T3"]
    last_state := OrderState.partlyFilled }

def c3State : ConnState := { in_flight_orders := [("XT-B3", c3Order)], events := [] }

def c3Msg : OrderStatusMsg :=
  { id := "903"
    status := OrderState.filled
    cumulative_base := 5
    avg_price := 10
    fee := 0
    trade_id := some "T3" }

def c3bOrder : XtInFlightOrder :=
  { client_order_id := "XT-B8"
    exchange_order_id := some "913"
    trading_pair := "BTC-USDT"
    order_type := OrderType.limit
    trade_type := TradeType.buy
    price := 10
    amount := 5
    executed_amount_base := 2
    executed_amount_quote := 20
    fee_paid := 0
    trade_ids := ["T7"]
    last_state := OrderState.partlyFilled }

def c3bState : ConnState := { in_flight_orders := [("XT-B8", c3bOrder)], events := [] }

def c3bMsg : OrderStatusMsg :=
  { id := "913"
    status := OrderState.filled
    cumulative_base := 5
    avg_price := 10
    fee := 0
    trade_id := some "T8" }

def c4Order : XtInFlightOrder :=
  { client_order_id := "XT-B4"
    exchange_order_id := some "904"
    trading_pair := "BTC-USDT"
    order_type := OrderType.limit
    trade_type := TradeType.buy
    price := 10
    amount := 5
    executed_amount_base := 0
    executed_amount_quote := 0
    fee_paid := 0
    trade_ids := []
    last_state := OrderState.opened }

/-- The spec's own example: a cumulative order-status record advancing
0 → 3, then the same fill delivered again as a discrete trade record with
the same trade id. -/
def c4Records : List FillRecord :=
  [FillRecord.fromOrderStatus
      { id := "904", status := OrderState.partlyFilled, cumulative_base := 3,
        avg_price := 10, fee := 0, trade_id := some "T4" },
    FillRecord.fromTrade
      { orderId := "904", trade_id := "T4", amount := 3, price := 10, fee := 0 }]

def c7GoodRaw : RawTradingRule :=
  { minAmount := some (1 / 10000)
    minMoney := some 5
    pricePoint := some 2
    coinPoint := some 4 }

def c7BadRaw : RawTradingRule :=
  { minAmount := none
    minMoney := some 5
    pricePoint := some 2
    coinPoint := some 4 }

def c7NewRule : TradingRule :=
  { trading_pair := "BTC-USDT"
    min_order_size := 1 / 10000
    min_order_value := 5
    min_base_amount_increment := 1 / 10 ^ 4
    min_price_increment := 1 / 10 ^ 2 }

/-! ### Dictionary lemmas -/

theorem dictGet_updateEntry_self {α : Type} (d : List (String × α)) (k : String) (v : α)
    (h : (dictGet d k).isSome) :
    dictGet (updateEntry d k v) k = some v := by
  induction d with
  | nil => simp [dictGet] at h
  | cons hd tl ih =>
    obtain ⟨k0, v0⟩ := hd
    by_cases hk : k0 = k
    · simp [updateEntry, hk, dictGet]
    · have h' : (dictGet tl k).isSome := by
        simpa [dictGet, Ne.symm hk] using h
      simpa [updateEntry, hk, dictGet, Ne.symm hk] using ih h'

theorem dictGet_updateEntry_ne {α : Type} (d : List (String × α)) (k k' : String) (v : α)
    (h : k' ≠ k) :
    dictGet (updateEntry d k v) k' = dictGet d k' := by
  induction d with
  | nil => simp [updateEntry]
  | cons hd tl ih =>
    obtain ⟨k0, v0⟩ := hd
    by_cases hk : k0 = k
    · subst hk
      simp [updateEntry, dictGet, h, ih]
    · by_cases hk' : k' = k0
      · simp [updateEntry, dictGet, hk, hk']
      · simp [updateEntry, dictGet, hk, hk', ih]

theorem dictGet_append_single_self {α : Type} (d : List (String × α)) (k : String) (v : α) :
    dictGet (d ++ [(k, v)]) k = some ((dictGet d k).getD v) := by
  induction d with
  | nil => simp [dictGet]
  | cons hd tl ih =>
    obtain ⟨k0, v0⟩ := hd
    by_cases hk : k = k0
    · simp [dictGet, hk]
    · simp [dictGet, hk, ih]

theorem dictGet_append_single_ne {α : Type} (d : List (String × α)) (k k' : String) (v : α)
    (h : k' ≠ k) :
    dictGet (d ++ [(k, v)]) k' = dictGet d k' := by
  induction d with
  | nil => simp [dictGet, h]
  | cons hd tl ih =>
    obtain ⟨k0, v0⟩ := hd
    by_cases hk' : k' = k0
    · simp [dictGet, hk']
    · simp [dictGet, hk', ih]

theorem dictGet_dictInsert_self {α : Type} (d : List (String × α)) (k : String) (v : α) :
    dictGet (dictInsert d k v) k = some v := by
  unfold dictInsert
  by_cases h : (dictGet d k).isSome
  · simpa [h] using dictGet_updateEntry_self d k v h
  · have hnone : dictGet d k = none := by
      cases hl : dictGet d k with
      | none => rfl
      | some w => simp [hl] at h
    simp [h, dictGet_append_single_self, hnone]

theorem dictGet_dictInsert_ne {α : Type} (d : List (String × α)) (k k' : String) (v : α)
    (h : k' ≠ k) :
    dictGet (dictInsert d k v) k' = dictGet d k' := by
  unfold dictInsert
  by_cases hs : (dictGet d k).isSome
  · simpa [hs] using dictGet_updateEntry_ne d k k' v h
  · simpa [hs] using dictGet_append_single_ne d k k' v h

theorem dictGet_dictRemove_self {α : Type} (d : List (String × α)) (k : String) :
    dictGet (dictRemove d k) k = none := by
  induction d with
  | nil => rfl
  | cons hd tl ih =>
    obtain ⟨k0, v0⟩ := hd
    by_cases hk : k0 = k
    · simpa [dictRemove, hk] using ih
    · simpa [dictRemove, dictGet, hk, Ne.symm hk] using ih

theorem dictGet_dictRemove_ne {α : Type} (d : List (String × α)) (k k' : String)
    (h : k' ≠ k) :
    dictGet (dictRemove d k) k' = dictGet d k' := by
  induction d with
  | nil => rfl
  | cons hd tl ih =>
    obtain ⟨k0, v0⟩ := hd
    by_cases hk : k0 = k
    · subst hk
      simpa [dictRemove, dictGet, h] using ih
    · by_cases hk' : k' = k0
      · simp [dictRemove, dictGet, hk, hk']
      · simpa [dictRemove, dictGet, hk, hk'] using ih

theorem dictGet_eq_none_of_not_mem_keys {α : Type} (d : List (String × α)) (k : String)
    (h : k ∉ d.map Prod.fst) :
    dictGet d k = none := by
  induction d with
  | nil => rfl
  | cons hd tl ih =>
    obtain ⟨k0, v0⟩ := hd
    simp only [List.map_cons, List.mem_cons] at h
    push_neg at h
    simpa [dictGet, h.1] using ih h.2

theorem dictGet_of_mem_nodup {α : Type} (d : List (String × α)) (k : String) (v : α)
    (hnd : keysNodup d) (h : (k, v) ∈ d) :
    dictGet d k = some v := by
  induction d with
  | nil => simp at h
  | cons hd tl ih =>
    obtain ⟨k0, v0⟩ := hd
    have hnd' : keysNodup tl :=
      (List.nodup_cons.mp (by simpa [keysNodup] using hnd)).2
    have hk0 : k0 ∉ tl.map Prod.fst :=
      (List.nodup_cons.mp (by simpa [keysNodup] using hnd)).1
    rcases List.mem_cons.mp h with heq | hmem
    · obtain ⟨hk, hv⟩ := Prod.mk.injEq .. ▸ heq
      subst hk
      subst hv
      simp [dictGet]
    · have hkne : ¬ k = k0 := by
        intro hkk
        subst hkk
        exact hk0 (List.mem_map_of_mem Prod.fst hmem)
      simpa [dictGet, hkne] using ih hnd' hmem

theorem dictGet_dictUpdate {α : Type} (d es : List (String × α)) (k : String)
    (hnd : keysNodup es) :
    dictGet (dictUpdate d es) k =
      orElseGet (dictGet es k) (dictGet d k) := by
  induction es generalizing d with
  | nil => simp [dictUpdate, dictGet, orElseGet]
  | cons hd tl ih =>
    obtain ⟨k0, v0⟩ := hd
    have hnd' : keysNodup tl :=
      (List.nodup_cons.mp (by simpa [keysNodup] using hnd)).2
    have hk0 : k0 ∉ tl.map Prod.fst :=
      (List.nodup_cons.mp (by simpa [keysNodup] using hnd)).1
    have hstep : dictUpdate d ((k0, v0) :: tl) = dictUpdate (dictInsert d k0 v0) tl := rfl
    rw [hstep, ih _ hnd']
    by_cases hk : k = k0
    · subst hk
      have htl : dictGet tl k = none := dictGet_eq_none_of_not_mem_keys tl k hk0
      simp [dictGet, htl, dictGet_dictInsert_self, orElseGet]
    · rcases htl : dictGet tl k with _ | v
      · simp [dictGet, hk, htl, dictGet_dictInsert_ne d k0 k v0 hk, orElseGet]
      · simp [dictGet, hk, htl, orElseGet]

/-! ### Claim C1 -/

/-- Claim C1, counterexample: `restore_tracking_states` performs no
terminal-state filtering — a saved order whose persisted `last_state` is the
terminal filled state IS inserted into the registry, contradicting the
claim that "an order saved in a terminal (filled, cancelled, or failed)
state is not inserted". -/
theorem restore_inserts_terminal_order :
    dictGet (restore_tracking_states c0State
        [("XT-B1", c1TerminalOrder)]).in_flight_orders "XT-B1"
      = some c1TerminalOrder
    ∧ c1TerminalOrder.last_state.isTerminal = true := by
  exact ⟨rfl, rfl⟩

/-- Claim C1 (amended): for every saved-state mapping passed to
`restore_tracking_states`, every saved order — terminal or not — is
inserted: the resulting registry maps each saved key to its restored order
and keeps previously tracked orders under keys the saved mapping does not
mention.  (The non-terminal filter the spec describes is applied at save
time by `tracking_states`, not at restore time.) -/
theorem restore_tracking_states_spec (s : ConnState)
    (saved : List (String × XtInFlightOrder)) (k : String)
    (hnd : keysNodup saved) :
    dictGet (restore_tracking_states s saved).in_flight_orders k =
      orElseGet (dictGet saved k) (dictGet s.in_flight_orders k) := by
  unfold restore_tracking_states
  simpa using dictGet_dictUpdate s.in_flight_orders saved k hnd

/-- Witness for the amended C1: restoring a snapshot holding one terminal
and one non-terminal order puts both into the registry. -/
theorem restore_tracking_states_spec_witness :
    dictGet (restore_tracking_states c0State c1Saved).in_flight_orders "XT-B1"
        = some c1TerminalOrder
    ∧ dictGet (restore_tracking_states c0State c1Saved).in_flight_orders "XT-S2"
        = some c1OpenOrder := by
  constructor
  · rw [restore_tracking_states_spec c0State c1Saved "XT-B1" (by decide)]
    rfl
  · rw [restore_tracking_states_spec c0State c1Saved "XT-S2" (by decide)]
    rfl

/-! ### Claim C2 -/

/-- Claim C2, counterexample: submitting a MARKET order raises
"Unsupported order type" before the `try` block of `_create_order`, so no
`MarketOrderFailureEvent` is ever emitted for the generated client order id
(the event stream stays empty), contradicting "a Failure event is always
emitted"; the no-tracked-order half of the claim does hold here. -/
theorem create_order_market_no_failure_event :
    (create_order TradeType.buy "XT-B5" "BTC-USDT" 1 OrderType.market 10
        c2Rules (Except.ok "905") c0State).state.events = []
    ∧ (create_order TradeType.buy "XT-B5" "BTC-USDT" 1 OrderType.market 10
        c2Rules (Except.ok "905") c0State).state.in_flight_orders = []
    ∧ (create_order TradeType.buy "XT-B5" "BTC-USDT" 1 OrderType.market 10
        c2Rules (Except.ok "905") c0State).raised
        = some "Unsupported order type" := by
  exact ⟨rfl, rfl, rfl⟩

/-- Claim C2 (amended): for an order type outside the limit family,
`_create_order` raises "Unsupported order type" before the `try` block:
nothing is tracked, the remote endpoint is not called, and — because the
raise sits outside the `try`/`except` that produces Failure events — no
Failure event is emitted and the exception escapes the coroutine. -/
theorem create_order_non_limit (trade_type : TradeType) (order_id : String)
    (trading_pair : String) (amount : ℚ) (order_type : OrderType) (price : ℚ)
    (rules : List (String × TradingRule)) (api : Except String String)
    (s : ConnState) (h : order_type.is_limit_type = false) :
    create_order trade_type order_id trading_pair amount order_type price
        rules api s =
      { state := s, api_called := false, raised := some "Unsupported order type" } := by
  unfold create_order
  simp [h]

/-- Witness for the amended C2 at a concrete MARKET submission. -/
theorem create_order_non_limit_witness :
    create_order TradeType.sell "XT-S6" "BTC-USDT" 2 OrderType.market 10
        c2Rules (Except.error "boom") c0State =
      { state := c0State, api_called := false, raised := some "Unsupported order type" } :=
  create_order_non_limit TradeType.sell "XT-S6" "BTC-USDT" 2 OrderType.market 10
    c2Rules (Except.error "boom") c0State rfl

/-! ### Claim C5 -/

/-- Claim C5: when the quantized amount is below the pair's
`min_order_size`, the `ValueError` is raised inside the `try` block before
`start_tracking_order` and before the remote call: the create endpoint is
never called, exactly one Failure event for the generated client order id
is appended, no tracked entry remains under that id, and the exception does
not escape the coroutine. -/
theorem create_order_below_min_size (trade_type : TradeType) (order_id : String)
    (trading_pair : String) (amount : ℚ) (order_type : OrderType) (price : ℚ)
    (rules : List (String × TradingRule)) (api : Except String String)
    (s : ConnState) (rule : TradingRule)
    (hlim : order_type.is_limit_type = true)
    (hrule : dictGet rules trading_pair = some rule)
    (hmin : quantize_order_amount rule amount < rule.min_order_size) :
    (create_order trade_type order_id trading_pair amount order_type price
        rules api s).api_called = false
    ∧ (create_order trade_type order_id trading_pair amount order_type price
        rules api s).state.events
        = s.events ++ [Event.orderFailure order_id order_type]
    ∧ dictGet (create_order trade_type order_id trading_pair amount order_type
        price rules api s).state.in_flight_orders order_id = none
    ∧ (create_order trade_type order_id trading_pair amount order_type price
        rules api s).raised = none := by
  unfold create_order
  simp [hlim, hrule, hmin, dictGet_dictRemove_self]

/-- Witness for C5: the spec's own example — amount 0.00005 on a pair with
`min_order_size = 0.0001` quantizes to 0 and is rejected pre-submission
with no tracked entry remaining. -/
theorem create_order_below_min_size_witness :
    (create_order TradeType.buy "XT-B7" "BTC-USDT" (1 / 20000) OrderType.limit
        10 c2Rules (Except.ok "907") c0State).api_called = false
    ∧ (create_order TradeType.buy "XT-B7" "BTC-USDT" (1 / 20000) OrderType.limit
        10 c2Rules (Except.ok "907") c0State).state.events
        = [Event.orderFailure "XT-B7" OrderType.limit]
    ∧ dictGet (create_order TradeType.buy "XT-B7" "BTC-USDT" (1 / 20000)
        OrderType.limit 10 c2Rules (Except.ok "907")
        c0State).state.in_flight_orders "XT-B7" = none := by
  have h := create_order_below_min_size TradeType.buy "XT-B7" "BTC-USDT"
    (1 / 20000) OrderType.limit 10 c2Rules (Except.ok "907") c0State c2Rule
    rfl rfl (by norm_num [quantize_order_amount, quantize_to_increment, c2Rule])
  exact ⟨h.1, h.2.1, h.2.2.1⟩

/-! ### Claim C6 -/

theorem cancel_all_classify_results (tracked : List (String × XtInFlightOrder))
    (open_ids : List String) (s : ConnState) :
    (cancel_all_classify tracked open_ids s).2 =
      tracked.map (fun p =>
        CancellationResult.mk p.1 (if p.1 ∈ open_ids then false else true)) := by
  induction tracked generalizing s with
  | nil => simp [cancel_all_classify]
  | cons hd tl ih =>
    obtain ⟨cid, o⟩ := hd
    by_cases hmem : cid ∈ open_ids
    · simp [cancel_all_classify, hmem, ih]
    · simp [cancel_all_classify, hmem, ih]

/-- Claim C6: `cancel_all` over the tracked orders returns one
`CancellationResult` per tracked order, in order: `success = false` exactly
for the orders whose client id is still in the re-fetched remote open-order
set, `success = true` for the rest; in particular the number of `false`
entries equals the number of tracked orders still present remotely. -/
theorem cancel_all_results (s : ConnState) (open_ids : List String) :
    ((cancel_all s open_ids).2.length = s.in_flight_orders.length)
    ∧ ((cancel_all s open_ids).2 =
        s.in_flight_orders.map (fun p =>
          CancellationResult.mk p.1 (if p.1 ∈ open_ids then false else true)))
    ∧ (((cancel_all s open_ids).2.filter (fun r => !r.success)).length
        = (s.in_flight_orders.filter (fun p => decide (p.1 ∈ open_ids))).length) := by
  have hchar := cancel_all_classify_results s.in_flight_orders open_ids s
  refine ⟨?_, ?_, ?_⟩
  · rw [show (cancel_all s open_ids).2 = (cancel_all_classify s.in_flight_orders open_ids s).2 from rfl, hchar]
    simp
  · exact hchar
  · rw [show (cancel_all s open_ids).2 = (cancel_all_classify s.in_flight_orders open_ids s).2 from rfl, hchar]
    induction s.in_flight_orders with
    | nil => simp
    | cons hd tl ih =>
      by_cases hmem : hd.1 ∈ open_ids
      · simpa [hmem] using ih
      · simpa [hmem] using ih

/-! ### Claim C7 -/

/-- Claim C7: one iteration of the trading-rules refresh never partially
empties the table — a failed fetch leaves the previous table untouched and
backs off 0.5 s instead of the steady 60 s cadence; a successful fetch
replaces the table atomically with the newly derived rules (and every
well-formed entry of the response survives into the new table). -/
theorem trading_rules_refresh (fetch : Except String (List (String × RawTradingRule)))
    (table : List (String × TradingRule)) :
    (∀ e, fetch = Except.error e →
      trading_rules_poll_iteration fetch table = (table, 1 / 2))
    ∧ (∀ cfgs, fetch = Except.ok cfgs →
      trading_rules_poll_iteration fetch table = (format_trading_rules cfgs, 60)
      ∧ ∀ market raw rule, (market, raw) ∈ cfgs →
          parseTradingRule market raw = some rule →
          (convert_from_exchange_trading_pair market, rule) ∈ format_trading_rules cfgs) := by
  constructor
  · intro e he
    subst he
    rfl
  · intro cfgs hc
    subst hc
    refine ⟨rfl, ?_⟩
    intro market raw rule hmem hparse
    unfold format_trading_rules
    refine List.mem_filterMap.mpr ⟨(market, raw), hmem, ?_⟩
    simp [hparse]

/-- Witness for C7: a failed fetch keeps a one-entry table and backs off
0.5 s; a successful fetch with one well-formed and one malformed entry
yields exactly the well-formed rule and sleeps 60 s. -/
theorem trading_rules_refresh_witness :
    trading_rules_poll_iteration (Except.error "timeout") [("BTC-USDT", c2Rule)]
        = ([("BTC-USDT", c2Rule)], 1 / 2)
    ∧ trading_rules_poll_iteration
        (Except.ok [("btc_usdt", c7GoodRaw), ("bad_pair", c7BadRaw)])
        [("BTC-USDT", c2Rule)]
        = ([("BTC-USDT", c7NewRule)], 60) := by
  constructor
  · exact (trading_rules_refresh (Except.error "timeout")
      [("BTC-USDT", c2Rule)]).1 "timeout" rfl
  · have h := (trading_rules_refresh
      (Except.ok [("btc_usdt", c7GoodRaw), ("bad_pair", c7BadRaw)])
      [("BTC-USDT", c2Rule)]).2
      [("btc_usdt", c7GoodRaw), ("bad_pair", c7BadRaw)] rfl
    rw [h.1]
    rfl

/-! ### Claim C8 -/

/-- Claim C8: `_execute_cancel` re-raises only the cancellation signal;
every other failure — order not found, exchange id never assigned, an API
exception, or a response code outside the accepted set {200, 121, 122} — is
caught and logged, the function returns without an order id, and the
in-flight registry (and event stream) is left completely unchanged, so the
order stays tracked for the next reconciliation pass. -/
theorem execute_cancel_shape (s : ConnState) (order_id : String)
    (eid_wait : Option String) (api : CancelApiOutcome) :
    (api = CancelApiOutcome.cancelSignal
      ∧ execute_cancel s order_id eid_wait api = Except.error ())
    ∨ (∃ r, execute_cancel s order_id eid_wait api = Except.ok (s, r)) := by
  rcases hget : dictGet s.in_flight_orders order_id with _ | o
  · exact Or.inr ⟨none, by simp [execute_cancel, hget]⟩
  · rcases horl : orElseGet o.exchange_order_id eid_wait with _ | e
    · exact Or.inr ⟨none, by simp [execute_cancel, hget, horl]⟩
    · cases api with
      | cancelSignal =>
        exact Or.inl ⟨rfl, by simp [execute_cancel, execute_cancel_request, hget, horl]⟩
      | exn msg =>
        exact Or.inr ⟨none, by simp [execute_cancel, execute_cancel_request, hget, horl]⟩
      | ok code =>
        by_cases hmem : code ∈ ([200, 121, 122] : List Int)
        · exact Or.inr ⟨some order_id,
            by simp [execute_cancel, execute_cancel_request, hget, horl, hmem]⟩
        · exact Or.inr ⟨none,
            by simp [execute_cancel, execute_cancel_request, hget, horl, hmem]⟩

/-- Claim C8: `_execute_cancel` re-raises only the cancellation signal;
every other failure — order not found, exchange id never assigned, an API
exception, or a response code outside the accepted set {200, 121, 122} — is
caught and logged, the function returns without an order id, and the
in-flight registry (and event stream) is left completely unchanged, so the
order stays tracked for the next reconciliation pass. -/
theorem execute_cancel_spec (s : ConnState) (order_id : String)
    (eid_wait : Option String) (api : CancelApiOutcome) :
    (∀ s1 r, execute_cancel s order_id eid_wait api = Except.ok (s1, r) → s1 = s)
    ∧ (∀ u, execute_cancel s order_id eid_wait api = Except.error u →
        api = CancelApiOutcome.cancelSignal)
    ∧ (∀ code, api = CancelApiOutcome.ok code →
        code ∉ ([200, 121, 122] : List Int) →
        execute_cancel s order_id eid_wait api = Except.ok (s, none)) := by
  refine ⟨?_, ?_, ?_⟩
  · intro s1 r h
    rcases execute_cancel_shape s order_id eid_wait api with ⟨_, herr⟩ | ⟨r', hok⟩
    · rw [herr] at h
      exact absurd h (by simp)
    · rw [hok] at h
      exact (Prod.ext_iff.mp (Except.ok.inj h)).1.symm
  · intro u h
    rcases execute_cancel_shape s order_id eid_wait api with ⟨hapi, _⟩ | ⟨r', hok⟩
    · exact hapi
    · rw [hok] at h
      exact absurd h (by simp)
  · intro code hc hmem
    subst hc
    rcases hget : dictGet s.in_flight_orders order_id with _ | o
    · simp [execute_cancel, hget]
    · rcases horl : orElseGet o.exchange_order_id eid_wait with _ | e
      · simp [execute_cancel, hget, horl]
      · simp [execute_cancel, execute_cancel_request, hget, horl, hmem]

/-- Witness for C8: a rejected cancel (code 123) on a tracked order is
swallowed — the call returns no order id and the registry still holds the
order. -/
theorem execute_cancel_spec_witness :
    execute_cancel { in_flight_orders := [("XT-B3", c3Order)], events := [] }
        "XT-B3" none (CancelApiOutcome.ok 123)
      = Except.ok ({ in_flight_orders := [("XT-B3", c3Order)], events := [] }, none) := by
  exact (execute_cancel_spec { in_flight_orders := [("XT-B3", c3Order)], events := [] }
    "XT-B3" none (CancelApiOutcome.ok 123)).2.2 123 rfl (by decide)

/-! ### Claim C9 -/

/-- Claim C9: in `_api_request`, a transport error is raised exactly when
the body fails to decode as JSON or the HTTP status is not 200; past those
checks, an application error carrying the decoded body is raised exactly
when the body has a `code` field outside the allow-list {200, 121, 122};
otherwise the decoded body is returned as success. -/
theorem api_request_error_taxonomy (decoded : Option ApiBody) (status : ℕ) :
    ((∃ m, api_response_check decoded status = Except.error (ApiFailure.transport m)) ↔
      (decoded = none ∨ status ≠ 200))
    ∧ (∀ b, api_response_check decoded status = Except.error (ApiFailure.application b) ↔
        (decoded = some b ∧ status = 200
          ∧ ∃ c, b.code = some c ∧ c ∉ ([200, 121, 122] : List Int)))
    ∧ (∀ b, api_response_check decoded status = Except.ok b ↔
        (decoded = some b ∧ status = 200
          ∧ ∀ c, b.code = some c → c ∈ ([200, 121, 122] : List Int))) := by
  rcases decoded with _ | body
  · have hres : api_response_check none status
        = Except.error (ApiFailure.transport "Error parsing data") := rfl
    refine ⟨?_, ?_, ?_⟩
    · rw [hres]
      exact ⟨fun _ => Or.inl rfl, fun _ => ⟨"Error parsing data", rfl⟩⟩
    · intro b
      rw [hres]
      constructor
      · intro h
        exact absurd h (by simp)
      · rintro ⟨h, -⟩
        exact absurd h (by simp)
    · intro b
      rw [hres]
      constructor
      · intro h
        exact absurd h (by simp)
      · rintro ⟨h, -⟩
        exact absurd h (by simp)
  · by_cases hs : status = 200
    · subst hs
      rcases hcode : body.code with _ | c
      · have hres : api_response_check (some body) 200 = Except.ok body := by
          simp [api_response_check, hcode]
        refine ⟨?_, ?_, ?_⟩
        · rw [hres]
          simp
        · intro b
          rw [hres]
          constructor
          · intro h
            exact absurd h (by simp)
          · rintro ⟨heq, -, c, hc, -⟩
            obtain rfl : body = b := by simpa using heq
            rw [hcode] at hc
            exact absurd hc (by simp)
        · intro b
          rw [hres]
          constructor
          · intro h
            obtain rfl : body = b := by simpa using h
            refine ⟨rfl, rfl, fun c hc => ?_⟩
            rw [hcode] at hc
            exact absurd hc (by simp)
          · rintro ⟨heq, -, -⟩
            obtain rfl : body = b := by simpa using heq
            rfl
      · by_cases hmem : c ∈ ([200, 121, 122] : List Int)
        · have hres : api_response_check (some body) 200 = Except.ok body := by
            simp [api_response_check, hcode, hmem]
          refine ⟨?_, ?_, ?_⟩
          · rw [hres]
            simp
          · intro b
            rw [hres]
            constructor
            · intro h
              exact absurd h (by simp)
            · rintro ⟨heq, -, c', hc', hout⟩
              obtain rfl : body = b := by simpa using heq
              rw [hcode] at hc'
              obtain rfl : c = c' := by simpa using hc'
              exact absurd hmem hout
          · intro b
            rw [hres]
            constructor
            · intro h
              obtain rfl : body = b := by simpa using h
              refine ⟨rfl, rfl, fun c' hc' => ?_⟩
              rw [hcode] at hc'
              obtain rfl : c = c' := by simpa using hc'
              exact hmem
            · rintro ⟨heq, -, -⟩
              obtain rfl : body = b := by simpa using heq
              rfl
        · have hres : api_response_check (some body) 200
              = Except.error (ApiFailure.application body) := by
            simp [api_response_check, hcode, hmem]
          refine ⟨?_, ?_, ?_⟩
          · rw [hres]
            simp
          · intro b
            rw [hres]
            constructor
            · intro h
              obtain rfl : body = b := by simpa using h
              exact ⟨rfl, rfl, c, hcode, hmem⟩
            · rintro ⟨heq, -, -⟩
              obtain rfl : body = b := by simpa using heq
              rfl
          · intro b
            rw [hres]
            constructor
            · intro h
              exact absurd h (by simp)
            · rintro ⟨heq, -, hall⟩
              obtain rfl : body = b := by simpa using heq
              exact absurd (hall c hcode) hmem
    · have hres : api_response_check (some body) status
          = Except.error (ApiFailure.transport "Error calling url, bad HTTP status") := by
        simp [api_response_check, hs]
      refine ⟨?_, ?_, ?_⟩
      · rw [hres]
        exact ⟨fun _ => Or.inr hs, fun _ => ⟨"Error calling url, bad HTTP status", rfl⟩⟩
      · intro b
        rw [hres]
        simp [hs]
      · intro b
        rw [hres]
        simp [hs]

/-- Witness for C9: a decoded body with `code = 404` under HTTP 200 is an
application error carrying that body; the same body under HTTP 500 is a
transport error; `code = 121` under HTTP 200 is success. -/
theorem api_request_error_taxonomy_witness :
    api_response_check (some { code := some 404, payload := "p" }) 200
      = Except.error (ApiFailure.application { code := some 404, payload := "p" })
    ∧ (∃ m, api_response_check (some { code := some 404, payload := "p" }) 500
        = Except.error (ApiFailure.transport m))
    ∧ api_response_check (some { code := some 121, payload := "p" }) 200
      = Except.ok { code := some 121, payload := "p" } := by
  refine ⟨?_, ?_, ?_⟩
  · exact ((api_request_error_taxonomy (some { code := some 404, payload := "p" }) 200).2.1
      { code := some 404, payload := "p" }).mpr ⟨rfl, rfl, 404, rfl, by decide⟩
  · exact ((api_request_error_taxonomy (some { code := some 404, payload := "p" }) 500).1).mpr
      (Or.inr (by decide))
  · exact ((api_request_error_taxonomy (some { code := some 121, payload := "p" }) 200).2.2
      { code := some 121, payload := "p" }).mpr
      ⟨rfl, rfl, fun c hc => by simp at hc; simp [hc]⟩

/-! ### Claim C10 -/

/-- Claim C10: `generate_auth_dict` returns the data dictionary with a
`params` mapping that contains the configured API key under `api_key`,
preserves every pre-existing `params` entry stored under any other key, and
leaves the remaining top-level entries of the dictionary untouched. -/
theorem generate_auth_dict_spec (auth : TTNExAuth) (path_url : String)
    (request_id nonce : Int) (data : Option AuthData) :
    (dictGet ((generate_auth_dict auth path_url request_id nonce data).params.getD [])
        "api_key" = some auth.api_key)
    ∧ (∀ k, k ≠ "api_key" →
        dictGet ((generate_auth_dict auth path_url request_id nonce data).params.getD []) k
          = dictGet ((data.getD { params := none, extra := [] }).params.getD []) k)
    ∧ ((generate_auth_dict auth path_url request_id nonce data).extra
        = (data.getD { params := none, extra := [] }).extra) := by
  unfold generate_auth_dict
  rcases data with _ | d
  · refine ⟨?_, ?_, rfl⟩
    · simpa using dictGet_dictInsert_self [] "api_key" auth.api_key
    · intro k hk
      simp only [Option.getD]
      rcases hg : ((none : Option AuthData).getD { params := none, extra := [] }).params.getD [] with _
      simpa using (dictGet_dictInsert_ne [] "api_key" k auth.api_key hk).trans rfl
  · rcases hp : d.params with _ | ps
    · refine ⟨?_, ?_, by simp [hp]⟩
      · simpa [hp] using dictGet_dictInsert_self [] "api_key" auth.api_key
      · intro k hk
        simpa [hp] using dictGet_dictInsert_ne [] "api_key" k auth.api_key hk
    · by_cases hemp : ps.isEmpty
      · have hnil : ps = [] := by
          cases ps with
          | nil => rfl
          | cons a l => simp [List.isEmpty] at hemp
        subst hnil
        refine ⟨?_, ?_, by simp [hp]⟩
        · simpa [hp, hemp] using dictGet_dictInsert_self [] "api_key" auth.api_key
        · intro k hk
          simpa [hp, hemp] using dictGet_dictInsert_ne [] "api_key" k auth.api_key hk
      · refine ⟨?_, ?_, by simp [hp]⟩
        · simpa [hp, hemp] using dictGet_dictInsert_self ps "api_key" auth.api_key
        · intro k hk
          simpa [hp, hemp] using dictGet_dictInsert_ne ps "api_key" k auth.api_key hk

/-- Witness for C10: merging into a data dictionary whose `params` already
holds another entry and a stale `api_key`: the configured key wins, the
other entry survives, and the top-level extras are untouched. -/
theorem generate_auth_dict_spec_witness :
    (dictGet ((generate_auth_dict { api_key := "K", secret_key := "S" } "/order" 1 2
        (some { params := some [("a", "1"), ("api_key", "old")], extra := [("x", "y")] })).params.getD [])
        "api_key" = some "K")
    ∧ (dictGet ((generate_auth_dict { api_key := "K", secret_key := "S" } "/order" 1 2
        (some { params := some [("a", "1"), ("api_key", "old")], extra := [("x", "y")] })).params.getD [])
        "a" = some "1")
    ∧ ((generate_auth_dict { api_key := "K", secret_key := "S" } "/order" 1 2
        (some { params := some [("a", "1"), ("api_key", "old")], extra := [("x", "y")] })).extra
        = [("x", "y")]) := by
  have h := generate_auth_dict_spec { api_key := "K", secret_key := "S" } "/order" 1 2
    (some { params := some [("a", "1"), ("api_key", "old")], extra := [("x", "y")] })
  refine ⟨h.1, ?_, h.2.2⟩
  rw [h.2.1 "a" (by decide)]
  rfl

/-! ### Lemmas about the tracked-order search and the dedup contract -/

theorem findTracked_mem (reg : List (String × XtInFlightOrder)) (eid : String)
    (cid : String) (o : XtInFlightOrder)
    (h : findTrackedByExchangeId reg eid = some (cid, o)) :
    (cid, o) ∈ reg ∧ o.exchange_order_id = some eid := by
  constructor
  · exact List.mem_of_find?_eq_some h
  · have hp := List.find?_some h
    simpa using hp

theorem findTracked_updateEntry (reg : List (String × XtInFlightOrder))
    (eid cid : String) (o o1 : XtInFlightOrder)
    (hnd : keysNodup reg)
    (h : findTrackedByExchangeId reg eid = some (cid, o))
    (heid : o1.exchange_order_id = o.exchange_order_id) :
    findTrackedByExchangeId (updateEntry reg cid o1) eid = some (cid, o1) := by
  induction reg with
  | nil => simp [findTrackedByExchangeId] at h
  | cons hd tl ih =>
    obtain ⟨k0, v0⟩ := hd
    have hnd' : keysNodup tl :=
      (List.nodup_cons.mp (by simpa [keysNodup] using hnd)).2
    have hk0 : k0 ∉ tl.map Prod.fst :=
      (List.nodup_cons.mp (by simpa [keysNodup] using hnd)).1
    by_cases hpv : v0.exchange_order_id = some eid
    · have hh : ((k0, v0) : String × XtInFlightOrder) = (cid, o) := by
        unfold findTrackedByExchangeId at h
        rw [List.find?_cons_of_pos _ (by simpa using hpv)] at h
        exact Option.some.inj h
      have hk : k0 = cid := congrArg Prod.fst hh
      have hv : v0 = o := congrArg Prod.snd hh
      unfold findTrackedByExchangeId
      rw [show updateEntry ((k0, v0) :: tl) cid o1 = (cid, o1) :: updateEntry tl cid o1
        from by simp [updateEntry, hk]]
      rw [List.find?_cons_of_pos _ (by simpa [heid] using hv ▸ hpv)]
    · have htl : findTrackedByExchangeId tl eid = some (cid, o) := by
        unfold findTrackedByExchangeId at h ⊢
        rwa [List.find?_cons_of_neg _ (by simpa using hpv)] at h
      have hcid_tl : cid ∈ tl.map Prod.fst :=
        List.mem_map_of_mem Prod.fst (findTracked_mem tl eid cid o htl).1
      have hk0cid : ¬ k0 = cid := fun he => hk0 (he ▸ hcid_tl)
      unfold findTrackedByExchangeId
      rw [show updateEntry ((k0, v0) :: tl) cid o1 = (k0, v0) :: updateEntry tl cid o1
        from by simp [updateEntry, hk0cid]]
      rw [List.find?_cons_of_neg _ (by simpa using hpv)]
      exact ih hnd' htl

/-- A zero delta from `update_with_order_status` means the stale branch ran
and the order is unchanged. -/
theorem update_with_order_status_zero (o : XtInFlightOrder) (m : OrderStatusMsg)
    (hz : (o.update_with_order_status m).2 = 0) :
    (o.update_with_order_status m).1 = o := by
  unfold XtInFlightOrder.update_with_order_status at hz ⊢
  by_cases hd : m.cumulative_base - o.executed_amount_base ≤ 0
  · simp [hd]
  · exfalso
    rw [if_neg hd] at hz
    simp only at hz
    exact hd (le_of_eq (by linarith [hz]))

theorem update_with_order_status_executed (o : XtInFlightOrder) (m : OrderStatusMsg) :
    (o.update_with_order_status m).1.executed_amount_base
      = o.executed_amount_base + (o.update_with_order_status m).2 := by
  unfold XtInFlightOrder.update_with_order_status
  by_cases hd : m.cumulative_base - o.executed_amount_base ≤ 0
  · simp [hd]
  · simp only [if_neg hd]
    ring

theorem update_with_order_status_delta_nonneg (o : XtInFlightOrder) (m : OrderStatusMsg) :
    0 ≤ (o.update_with_order_status m).2 := by
  unfold XtInFlightOrder.update_with_order_status
  by_cases hd : m.cumulative_base - o.executed_amount_base ≤ 0
  · simp [hd]
  · simp [hd]
    linarith [not_le.mp hd]

theorem update_with_order_status_stale (o : XtInFlightOrder) (m : OrderStatusMsg)
    (h : m.cumulative_base ≤ o.executed_amount_base) :
    o.update_with_order_status m = (o, 0) := by
  unfold XtInFlightOrder.update_with_order_status
  rw [if_pos (by linarith)]

theorem update_with_order_status_ids (o : XtInFlightOrder) (m : OrderStatusMsg)
    (t : String) (h : t ∈ o.trade_ids) :
    t ∈ (o.update_with_order_status m).1.trade_ids := by
  unfold XtInFlightOrder.update_with_order_status
  by_cases hd : m.cumulative_base - o.executed_amount_base ≤ 0
  · simpa [hd] using h
  · rcases m.trade_id with _ | t'
    · simpa [hd] using h
    · by_cases ht' : t' ∈ o.trade_ids
      · simpa [hd, ht'] using h
      · simp [hd, ht']
        exact Or.inr h

theorem update_with_trade_status_executed (o : XtInFlightOrder) (m : TradeMsg) :
    (o.update_with_trade_status m).1.executed_amount_base
      = o.executed_amount_base + (o.update_with_trade_status m).2 := by
  unfold XtInFlightOrder.update_with_trade_status
  by_cases hmem : m.trade_id ∈ o.trade_ids
  · simp [hmem]
  · simp [hmem]

/-- A trade record whose id was already applied is a complete no-op. -/
theorem update_with_trade_status_dup (o : XtInFlightOrder) (m : TradeMsg)
    (hmem : m.trade_id ∈ o.trade_ids) :
    o.update_with_trade_status m = (o, 0) := by
  unfold XtInFlightOrder.update_with_trade_status
  rw [if_pos hmem]

theorem update_with_trade_status_ids (o : XtInFlightOrder) (m : TradeMsg)
    (t : String) (h : t ∈ o.trade_ids) :
    t ∈ (o.update_with_trade_status m).1.trade_ids := by
  unfold XtInFlightOrder.update_with_trade_status
  by_cases hmem : m.trade_id ∈ o.trade_ids
  · simpa [hmem] using h
  · simp [hmem]
    exact Or.inr h

theorem update_with_trade_status_records_id (o : XtInFlightOrder) (m : TradeMsg) :
    m.trade_id ∈ (o.update_with_trade_status m).1.trade_ids := by
  unfold XtInFlightOrder.update_with_trade_status
  by_cases hmem : m.trade_id ∈ o.trade_ids
  · simpa [hmem] using hmem
  · simp [hmem]

/-! ### Characterization of the two trade-message processors -/

theorem process_tmos_cases (s : ConnState) (m : OrderStatusMsg) (cid : String)
    (o : XtInFlightOrder)
    (hfind : findTrackedByExchangeId s.in_flight_orders m.id = some (cid, o)) :
    ((o.update_with_order_status m).2 = 0 →
      process_trade_message_from_order_status s m =
        { in_flight_orders :=
            updateEntry s.in_flight_orders cid (o.update_with_order_status m).1
          events := s.events })
    ∧ ((o.update_with_order_status m).2 ≠ 0 →
        completionReached (o.update_with_order_status m).1 = true →
      process_trade_message_from_order_status s m =
        { in_flight_orders :=
            dictRemove (updateEntry
              (updateEntry s.in_flight_orders cid (o.update_with_order_status m).1)
              cid { (o.update_with_order_status m).1 with last_state := OrderState.filled }) cid
          events := (s.events ++
            [Event.orderFilled cid (o.update_with_order_status m).2 m.avg_price
              m.fee m.trade_id]) ++
            [completedEvent cid
              { (o.update_with_order_status m).1 with last_state := OrderState.filled }] })
    ∧ ((o.update_with_order_status m).2 ≠ 0 →
        completionReached (o.update_with_order_status m).1 = false →
      process_trade_message_from_order_status s m =
        { in_flight_orders :=
            updateEntry s.in_flight_orders cid (o.update_with_order_status m).1
          events := s.events ++
            [Event.orderFilled cid (o.update_with_order_status m).2 m.avg_price
              m.fee m.trade_id] }) := by
  refine ⟨?_, ?_, ?_⟩
  · intro hz
    simp [process_trade_message_from_order_status, hfind, hz]
  · intro hnz hcomp
    simp [process_trade_message_from_order_status, hfind, hnz, hcomp]
  · intro hnz hcomp
    simp [process_trade_message_from_order_status, hfind, hnz, hcomp]

theorem process_tmts_cases (s : ConnState) (m : TradeMsg) (cid : String)
    (o : XtInFlightOrder)
    (hfind : findTrackedByExchangeId s.in_flight_orders m.orderId = some (cid, o)) :
    ((o.update_with_trade_status m).2 = 0 →
      process_trade_message_from_trade_status s m =
        { in_flight_orders :=
            updateEntry s.in_flight_orders cid (o.update_with_trade_status m).1
          events := s.events })
    ∧ ((o.update_with_trade_status m).2 ≠ 0 →
        completionReached (o.update_with_trade_status m).1 = true →
      process_trade_message_from_trade_status s m =
        { in_flight_orders :=
            dictRemove (updateEntry
              (updateEntry s.in_flight_orders cid (o.update_with_trade_status m).1)
              cid { (o.update_with_trade_status m).1 with last_state := OrderState.filled }) cid
          events := (s.events ++
            [Event.orderFilled cid (o.update_with_trade_status m).2 m.price
              m.fee (some m.trade_id)]) ++
            [completedEvent cid
              { (o.update_with_trade_status m).1 with last_state := OrderState.filled }] })
    ∧ ((o.update_with_trade_status m).2 ≠ 0 →
        completionReached (o.update_with_trade_status m).1 = false →
      process_trade_message_from_trade_status s m =
        { in_flight_orders :=
            updateEntry s.in_flight_orders cid (o.update_with_trade_status m).1
          events := s.events ++
            [Event.orderFilled cid (o.update_with_trade_status m).2 m.price
              m.fee (some m.trade_id)] }) := by
  refine ⟨?_, ?_, ?_⟩
  · intro hz
    simp [process_trade_message_from_trade_status, hfind, hz]
  · intro hnz hcomp
    simp [process_trade_message_from_trade_status, hfind, hnz, hcomp]
  · intro hnz hcomp
    simp [process_trade_message_from_trade_status, hfind, hnz, hcomp]

theorem isCompleted_orderFilled (cid : String) (a p f : ℚ) (tid : Option String) :
    (Event.orderFilled cid a p f tid).isCompleted = false := rfl

theorem isFill_orderFilled (cid : String) (a p f : ℚ) (tid : Option String) :
    (Event.orderFilled cid a p f tid).isFill = true := rfl

theorem isCompleted_completedEvent (cid : String) (o : XtInFlightOrder) :
    (completedEvent cid o).isCompleted = true := by
  unfold completedEvent
  by_cases h : o.trade_type = TradeType.buy
  · simp [h, Event.isCompleted]
  · simp [h, Event.isCompleted]

theorem isFill_completedEvent (cid : String) (o : XtInFlightOrder) :
    (completedEvent cid o).isFill = false := by
  unfold completedEvent
  by_cases h : o.trade_type = TradeType.buy
  · simp [h, Event.isFill]
  · simp [h, Event.isFill]

/-! ### Claim C3 -/

/-- Claim C3, counterexample: a tracked order whose executed amount has
already reached its requested amount (5 of 5, within tolerance) receives
the order-status message reporting it done with a zero cumulative delta;
`_process_trade_message_from_order_status` returns at the
`if not delta_trade_amount` guard before the completion block, so no
Completed event is emitted and the order is NOT removed from the registry —
contradicting "transitions to a terminal completed state exactly once (one
Completed event, then removal) … including when the order-status message
reporting it done carries a zero cumulative delta". -/
theorem done_with_zero_delta_not_completed :
    completionReached c3Order = true
    ∧ countCompleted (process_order_message c3State c3Msg).events = 0
    ∧ (dictGet (process_order_message c3State c3Msg).in_flight_orders "XT-B3").isSome
        = true := by
  have hpom : process_order_message c3State c3Msg
      = process_trade_message_from_order_status
          { c3State with
              in_flight_orders := updateEntry c3State.in_flight_orders "XT-B3"
                { c3Order with last_state := c3Msg.status } } c3Msg := rfl
  have hz : (({ c3Order with last_state := c3Msg.status } : XtInFlightOrder).update_with_order_status c3Msg).2 = 0 := by
    norm_num [XtInFlightOrder.update_with_order_status, c3Order, c3Msg]
  have h0 := (process_tmos_cases
    { c3State with
        in_flight_orders := updateEntry c3State.in_flight_orders "XT-B3"
          { c3Order with last_state := c3Msg.status } } c3Msg "XT-B3"
    { c3Order with last_state := c3Msg.status } rfl).1 hz
  refine ⟨?_, ?_, ?_⟩
  · norm_num [completionReached, iscloseQ, c3Order]
  · rw [hpom, h0]
    rfl
  · rw [hpom, h0]
    rfl

/-- Claim C3 (amended): when an order-status message maps the order to the
done state, the Fill for the cumulative delta is emitted strictly before
the Completed event and completion happens at most once: if the delta is
positive and the updated executed amount reaches the requested amount
within the tolerance, exactly one Fill followed by exactly one Completed
event is appended and the order is removed from the registry; but if the
message carries a zero cumulative delta, no event at all is emitted and
the order stays tracked (completion is deferred, not triggered). -/
theorem order_done_processing (s : ConnState) (m : OrderStatusMsg)
    (cid : String) (o : XtInFlightOrder)
    (hnd : keysNodup s.in_flight_orders)
    (hfind : findTrackedByExchangeId s.in_flight_orders m.id = some (cid, o))
    (hdone : m.status = OrderState.filled) :
    ((({ o with last_state := m.status } : XtInFlightOrder).update_with_order_status m).2 = 0 →
      (process_order_message s m).events = s.events
      ∧ countCompleted (process_order_message s m).events = countCompleted s.events
      ∧ dictGet (process_order_message s m).in_flight_orders cid
          = some { o with last_state := m.status })
    ∧ ((({ o with last_state := m.status } : XtInFlightOrder).update_with_order_status m).2 ≠ 0 →
        completionReached
          (({ o with last_state := m.status } : XtInFlightOrder).update_with_order_status m).1 = true →
      (process_order_message s m).events
        = s.events ++
          [Event.orderFilled cid
            (({ o with last_state := m.status } : XtInFlightOrder).update_with_order_status m).2
            m.avg_price m.fee m.trade_id,
           completedEvent cid
            { (({ o with last_state := m.status } : XtInFlightOrder).update_with_order_status m).1 with
                last_state := OrderState.filled }]
      ∧ countCompleted (process_order_message s m).events = countCompleted s.events + 1
      ∧ dictGet (process_order_message s m).in_flight_orders cid = none) := by
  have hncanc : ({ o with last_state := m.status } : XtInFlightOrder).is_cancelled = false := by
    simp [XtInFlightOrder.is_cancelled, hdone]
  have hisdone : ({ o with last_state := m.status } : XtInFlightOrder).is_done = true := by
    simp [XtInFlightOrder.is_done, hdone]
  have hpom : process_order_message s m
      = process_trade_message_from_order_status
          { s with in_flight_orders :=
              updateEntry s.in_flight_orders cid { o with last_state := m.status } } m := by
    simp [process_order_message, hfind, hncanc, hisdone]
  have hfind1 : findTrackedByExchangeId
      (updateEntry s.in_flight_orders cid { o with last_state := m.status }) m.id
      = some (cid, { o with last_state := m.status }) :=
    findTracked_updateEntry s.in_flight_orders m.id cid o _ hnd hfind rfl
  have hc := process_tmos_cases
    { s with in_flight_orders :=
        updateEntry s.in_flight_orders cid { o with last_state := m.status } } m cid
    { o with last_state := m.status } hfind1
  have hsome0 : (dictGet s.in_flight_orders cid).isSome = true := by
    rw [dictGet_of_mem_nodup s.in_flight_orders cid o hnd (findTracked_mem _ _ _ _ hfind).1]
    rfl
  constructor
  · intro hz
    have h0 := hc.1 hz
    have ho1 := update_with_order_status_zero
      ({ o with last_state := m.status } : XtInFlightOrder) m hz
    rw [hpom, h0]
    refine ⟨rfl, rfl, ?_⟩
    rw [ho1]
    have hsome1 : (dictGet (updateEntry s.in_flight_orders cid
        { o with last_state := m.status }) cid).isSome = true := by
      rw [dictGet_updateEntry_self _ _ _ hsome0]
      rfl
    exact dictGet_updateEntry_self _ _ _ hsome1
  · intro hnz hcomp
    have h2 := hc.2.1 hnz hcomp
    rw [hpom, h2]
    refine ⟨by simp, ?_, ?_⟩
    · simp [countCompleted, List.filter_append, isCompleted_completedEvent,
        isCompleted_orderFilled]
    · exact dictGet_dictRemove_self _ _

/-- Witness for the amended C3: an order with 2 of 5 executed receives a
done message with cumulative 5 — exactly one Completed event is emitted
(after the Fill) and the order is removed. -/
theorem order_done_processing_witness :
    countCompleted (process_order_message c3bState c3bMsg).events = 1
    ∧ dictGet (process_order_message c3bState c3bMsg).in_flight_orders "XT-B8"
        = none := by
  have h := order_done_processing c3bState c3bMsg "XT-B8" c3bOrder
    (by decide) rfl rfl
  have hnz : (({ c3bOrder with last_state := c3bMsg.status } : XtInFlightOrder).update_with_order_status c3bMsg).2 ≠ 0 := by
    norm_num [XtInFlightOrder.update_with_order_status, c3bOrder, c3bMsg]
  have hcomp : completionReached
      (({ c3bOrder with last_state := c3bMsg.status } : XtInFlightOrder).update_with_order_status c3bMsg).1 = true := by
    norm_num [completionReached, iscloseQ, XtInFlightOrder.update_with_order_status,
      c3bOrder, c3bMsg]
  obtain ⟨-, hcnt, hrem⟩ := h.2 hnz hcomp
  refine ⟨?_, hrem⟩
  rw [hcnt]
  rfl

/-! ### Claim C4 -/

theorem applyRecord_executed (o : XtInFlightOrder) (r : FillRecord) :
    (o.applyRecord r).1.executed_amount_base
      = o.executed_amount_base + (o.applyRecord r).2 := by
  cases r with
  | fromOrderStatus m => exact update_with_order_status_executed o m
  | fromTrade m => exact update_with_trade_status_executed o m

theorem applyRecord_delta_nonneg (o : XtInFlightOrder) (r : FillRecord)
    (hpos : r.posTradeAmount = true) :
    0 ≤ (o.applyRecord r).2 := by
  cases r with
  | fromOrderStatus m => exact update_with_order_status_delta_nonneg o m
  | fromTrade m =>
    have hm : 0 < m.amount := by
      simpa [FillRecord.posTradeAmount] using hpos
    unfold XtInFlightOrder.applyRecord XtInFlightOrder.update_with_trade_status
    by_cases hmem : m.trade_id ∈ o.trade_ids
    · simp [hmem]
    · simp [hmem]
      exact le_of_lt hm

theorem applyRecord_ids_mono (o : XtInFlightOrder) (r : FillRecord) (t : String)
    (h : t ∈ o.trade_ids) : t ∈ (o.applyRecord r).1.trade_ids := by
  cases r with
  | fromOrderStatus m => exact update_with_order_status_ids o m t h
  | fromTrade m => exact update_with_trade_status_ids o m t h

theorem applyRecords_executed (o : XtInFlightOrder) (rs : List FillRecord) :
    (o.applyRecords rs).1.executed_amount_base
      = o.executed_amount_base + ((o.applyRecords rs).2).sum := by
  induction rs generalizing o with
  | nil => simp [XtInFlightOrder.applyRecords]
  | cons r rest ih =>
    simp only [XtInFlightOrder.applyRecords, List.sum_cons]
    rw [ih, applyRecord_executed o r]
    ring

theorem applyRecords_deltas_nonneg (o : XtInFlightOrder) (rs : List FillRecord)
    (hpos : ∀ r ∈ rs, r.posTradeAmount = true) :
    ∀ d ∈ (o.applyRecords rs).2, 0 ≤ d := by
  induction rs generalizing o with
  | nil =>
    intro d hd
    simp [XtInFlightOrder.applyRecords] at hd
  | cons r rest ih =>
    intro d hd
    simp only [XtInFlightOrder.applyRecords, List.mem_cons] at hd
    rcases hd with rfl | hd
    · exact applyRecord_delta_nonneg o r (hpos r (List.mem_cons_self _ _))
    · exact ih _ (fun r' hr' => hpos r' (List.mem_cons_of_mem _ hr')) d hd

theorem applyRecords_ids_mono (o : XtInFlightOrder) (rs : List FillRecord)
    (t : String) (h : t ∈ o.trade_ids) :
    t ∈ (o.applyRecords rs).1.trade_ids := by
  induction rs generalizing o with
  | nil => simpa [XtInFlightOrder.applyRecords] using h
  | cons r rest ih =>
    simp only [XtInFlightOrder.applyRecords]
    exact ih _ (applyRecord_ids_mono o r t h)

theorem applyRecords_trade_id_recorded (o : XtInFlightOrder) (rs : List FillRecord)
    (m : TradeMsg) (hmem : FillRecord.fromTrade m ∈ rs) :
    m.trade_id ∈ (o.applyRecords rs).1.trade_ids := by
  induction rs generalizing o with
  | nil => simp at hmem
  | cons r rest ih =>
    rcases List.mem_cons.mp hmem with heq | hmem'
    · cases heq.symm
      simp only [XtInFlightOrder.applyRecords]
      exact applyRecords_ids_mono _ rest _ (update_with_trade_status_records_id o m)
    · simp only [XtInFlightOrder.applyRecords]
      exact ih _ hmem'

/-- Claim C4: for all sequences of order-status / trade-status records
applied to one order, duplicate or stale records change nothing: the final
`executed_amount_base` is the initial value plus exactly the deltas the
dedup contract returned, every delta is non-negative, a trade id already in
the applied set makes any further trade record for it a complete no-op (so
no trade id is applied twice, whichever path delivered it first — the
order-status path records the trade id it carries), an order-status record
whose cumulative is not strictly greater than the current executed amount
is a complete no-op, and at the connector level each processor appends an
`OrderFilled` event exactly when the record's delta is non-zero — one Fill
per non-zero delta on either path, never for a zero delta. -/
theorem fill_dedup_spec (o : XtInFlightOrder) (rs : List FillRecord)
    (hpos : ∀ r ∈ rs, r.posTradeAmount = true) :
    ((o.applyRecords rs).1.executed_amount_base
        = o.executed_amount_base + ((o.applyRecords rs).2).sum)
    ∧ (∀ d ∈ (o.applyRecords rs).2, 0 ≤ d)
    ∧ (∀ m : TradeMsg, m.trade_id ∈ (o.applyRecords rs).1.trade_ids →
        (o.applyRecords rs).1.update_with_trade_status m = ((o.applyRecords rs).1, 0))
    ∧ (∀ m : TradeMsg, FillRecord.fromTrade m ∈ rs →
        m.trade_id ∈ (o.applyRecords rs).1.trade_ids)
    ∧ (∀ m : OrderStatusMsg,
        m.cumulative_base ≤ (o.applyRecords rs).1.executed_amount_base →
        (o.applyRecords rs).1.update_with_order_status m = ((o.applyRecords rs).1, 0))
    ∧ (∀ rs1 m rs2, rs = rs1 ++ FillRecord.fromTrade m :: rs2 →
        FillRecord.fromTrade m ∈ rs1 →
        ((o.applyRecords rs1).1.update_with_trade_status m).2 = 0)
    ∧ (∀ (s : ConnState) (msg : OrderStatusMsg) (cid : String) (otr : XtInFlightOrder),
        findTrackedByExchangeId s.in_flight_orders msg.id = some (cid, otr) →
        countFills (process_trade_message_from_order_status s msg).events
          = countFills s.events
            + (if (otr.update_with_order_status msg).2 = 0 then 0 else 1))
    ∧ (∀ (s : ConnState) (msg : TradeMsg) (cid : String) (otr : XtInFlightOrder),
        findTrackedByExchangeId s.in_flight_orders msg.orderId = some (cid, otr) →
        countFills (process_trade_message_from_trade_status s msg).events
          = countFills s.events
            + (if (otr.update_with_trade_status msg).2 = 0 then 0 else 1)) := by
  refine ⟨applyRecords_executed o rs, applyRecords_deltas_nonneg o rs hpos,
    ?_, ?_, ?_, ?_, ?_, ?_⟩
  · intro m hmem
    exact update_with_trade_status_dup _ m hmem
  · intro m hmem
    exact applyRecords_trade_id_recorded o rs m hmem
  · intro m hle
    exact update_with_order_status_stale _ m hle
  · intro rs1 m rs2 hsplit hmem1
    have hid := applyRecords_trade_id_recorded o rs1 m hmem1
    rw [update_with_trade_status_dup _ m hid]
  · intro s msg cid otr hfind
    have hc := process_tmos_cases s msg cid otr hfind
    by_cases hz : (otr.update_with_order_status msg).2 = 0
    · rw [hc.1 hz]
      simp [hz]
    · by_cases hcq : completionReached (otr.update_with_order_status msg).1 = true
      · rw [hc.2.1 hz hcq]
        simp [countFills, List.filter_append, isFill_orderFilled,
          isFill_completedEvent, hz]
      · rw [hc.2.2 hz (by simpa using hcq)]
        simp [countFills, List.filter_append, isFill_orderFilled, hz]
  · intro s msg cid otr hfind
    have hc := process_tmts_cases s msg cid otr hfind
    by_cases hz : (otr.update_with_trade_status msg).2 = 0
    · rw [hc.1 hz]
      simp [hz]
    · by_cases hcq : completionReached (otr.update_with_trade_status msg).1 = true
      · rw [hc.2.1 hz hcq]
        simp [countFills, List.filter_append, isFill_orderFilled,
          isFill_completedEvent, hz]
      · rw [hc.2.2 hz (by simpa using hcq)]
        simp [countFills, List.filter_append, isFill_orderFilled, hz]

/-- Witness for C4 at the spec's own example: an order-status record
advancing the cumulative 0 → 3 followed by the same fill as a trade record
with the same id — the executed amount is the sum of the deltas, all deltas
are non-negative, and the shared trade id ends up recorded (so the second
delivery was deduplicated). -/
theorem fill_dedup_spec_witness :
    ((c4Order.applyRecords c4Records).1.executed_amount_base
        = c4Order.executed_amount_base + ((c4Order.applyRecords c4Records).2).sum)
    ∧ (∀ d ∈ (c4Order.applyRecords c4Records).2, 0 ≤ d)
    ∧ ("T4" : String) ∈ (c4Order.applyRecords c4Records).1.trade_ids := by
  have hpos : ∀ r ∈ c4Records, r.posTradeAmount = true := by
    intro r hr
    rcases List.mem_cons.mp hr with rfl | hr'
    · rfl
    · rcases List.mem_cons.mp hr' with rfl | h0
      · simp only [FillRecord.posTradeAmount, decide_eq_true_eq]
        norm_num
      · simp at h0
  have h := fill_dedup_spec c4Order c4Records hpos
  refine ⟨h.1, h.2.1, ?_⟩
  exact h.2.2.2.1 { orderId := "904", trade_id := "T4", amount := 3, price := 10, fee := 0 }
    (by simp [c4Records])

end XT
